import Mathlib

/-
Shallow embedding of the request-authorization and input-governance pipeline
of a small Firebase backend (functions/validators.js plus the auth middleware
module).  Pure JS functions become Lean functions; the module-level mutable
maps (rate limiter, duplicate-content store) become explicit state passing;
a JS function that can `throw` returns `Except String _` (the thrown Error
message), and a throwing call on global state returns the unchanged state.
Firestore is modelled at its interface boundary: collections are lookup
functions or lists passed in explicitly.
-/

/-- Model of the JS values the validators receive: the claims need
`undefined`, `null`, booleans, numbers and strings.  Numbers are modelled as
integers (the concrete values in the code and claims are all integral). -/
inductive JsValue where
  | undef
  | nullv
  | bool (b : Bool)
  | num (n : Int)
  | str (s : String)
  deriving DecidableEq, Repr

/-- JS truthiness for the modelled values: `undefined`, `null`, `false`,
`0` and `""` are falsy, everything else truthy. -/
def jsTruthy : JsValue → Bool
  | JsValue.undef => false
  | JsValue.nullv => false
  | JsValue.bool b => b
  | JsValue.num n => n != 0
  | JsValue.str s => s != ""

/-- Characters removed by JS `String.prototype.trim` (WhiteSpace and
LineTerminator code points). -/
def isJsSpace (c : Char) : Bool :=
  let n := c.toNat
  n == 0x9 || n == 0xA || n == 0xB || n == 0xC || n == 0xD || n == 0x20 ||
  n == 0xA0 || n == 0x1680 || (decide (0x2000 ≤ n) && decide (n ≤ 0x200A)) ||
  n == 0x2028 || n == 0x2029 || n == 0x202F || n == 0x205F || n == 0x3000 ||
  n == 0xFEFF

/-- JS `trim`: drop leading and trailing whitespace. -/
def jsTrim (l : List Char) : List Char :=
  ((l.dropWhile isJsSpace).reverse.dropWhile isJsSpace).reverse

/-- The character class `[\x00-\x08\x0B\x0C\x0E-\x1F\x7F]` of the
control-character-stripping regex in `sanitizeString`. -/
def isBannedControl (c : Char) : Bool :=
  let n := c.toNat
  decide (n ≤ 0x08) || n == 0x0B || n == 0x0C ||
  (decide (0x0E ≤ n) && decide (n ≤ 0x1F)) || n == 0x7F

/-- `.replace(/[\x00-\x08\x0B\x0C\x0E-\x1F\x7F]/g, "")`. -/
def stripControl (l : List Char) : List Char :=
  l.filter (fun c => !isBannedControl c)

/-- ASCII lower-casing on code points (the regex literal characters are
ASCII, and without the `u` flag case canonicalization never maps a
non-ASCII character onto an ASCII one). -/
def lcNat (n : Nat) : Nat :=
  if 65 ≤ n ∧ n ≤ 90 then n + 32 else n

/-- Case-insensitive literal match of `pat` against a prefix of `l`. -/
def ciMatch : List Char → List Char → Bool
  | [], _ => true
  | _ :: _, [] => false
  | p :: ps, c :: cs => (lcNat p.toNat == lcNat c.toNat) && ciMatch ps cs

/-- Word characters of the regex `\b` assertion (no `u` flag): `[A-Za-z0-9_]`. -/
def isWordChar (c : Char) : Bool :=
  let n := c.toNat
  (decide (65 ≤ n) && decide (n ≤ 90)) || (decide (97 ≤ n) && decide (n ≤ 122)) ||
  (decide (48 ≤ n) && decide (n ≤ 57)) || n == 0x5F

def scriptChars : List Char := ['s', 'c', 'r', 'i', 'p', 't']

def closeChars : List Char := ['<', '/', 's', 'c', 'r', 'i', 'p', 't', '>']

/-- Does `<script\b` (case-insensitive) match at the head of `l`? -/
def openTagAt (l : List Char) : Bool :=
  match l with
  | [] => false
  | c :: rest =>
    c == '<' && ciMatch scriptChars rest &&
    (match rest.drop 6 with
     | [] => true
     | d :: _ => !isWordChar d)

/-- Scan for the first case-insensitive occurrence of `</script>`; return the
suffix after it.  The body pattern `[^<]*(?:(?!<\/script>)<[^<]*)*` matches
exactly the segment up to this first occurrence, so the regex match ends
here (the non-greedy behaviour of the script-stripping regex). -/
def findClose : List Char → Option (List Char)
  | [] => none
  | c :: rest =>
    if ciMatch closeChars (c :: rest) then some (List.drop 9 (c :: rest))
    else findClose rest

/-- One pass of `.replace(/<script\b[^<]*(?:(?!<\/script>)<[^<]*)*<\/script>/gi, "")`:
leftmost-first matching, continuing after each removed match.  Fuel is the
input length; every step consumes at least one character. -/
def stripScriptsAux : Nat → List Char → List Char
  | 0, l => l
  | Nat.succ _, [] => []
  | Nat.succ fuel, c :: rest =>
    if openTagAt (c :: rest) then
      match findClose (rest.drop 6) with
      | some suffix => stripScriptsAux fuel suffix
      | none => c :: stripScriptsAux fuel rest
    else c :: stripScriptsAux fuel rest

def stripScripts (l : List Char) : List Char :=
  stripScriptsAux l.length l

/-- `sanitizeString` from validators.js: non-string input sanitizes to `""`;
a string is trimmed, control-stripped, script-stripped, then `.slice(0, 10000)`. -/
def sanitizeString (input : JsValue) : String :=
  match input with
  | JsValue.str s =>
    String.mk ((stripScripts (stripControl (jsTrim s.data))).take 10000)
  | _ => ""

/-- `validateLength` from validators.js (call sites in the claims all pass
explicit finite bounds, so `min`/`max` are plain naturals here). -/
def validateLength (value : String) (min max : Nat) (fieldName : String) :
    Except String Unit :=
  if value.length < min then
    Except.error (fieldName ++ " must be at least " ++ toString min ++
      " characters long")
  else if max < value.length then
    Except.error (fieldName ++ " must not exceed " ++ toString max ++
      " characters")
  else Except.ok ()

def parseDigitsAux : List Char → Nat → Option Nat
  | [], acc => some acc
  | c :: cs, acc =>
    if 48 ≤ c.toNat ∧ c.toNat ≤ 57 then
      parseDigitsAux cs (acc * 10 + (c.toNat - 48))
    else none

def parseDigits : List Char → Option Nat
  | [] => none
  | c :: cs => parseDigitsAux (c :: cs) 0

/-- Modelled subset of the JS `Number()` coercion on strings: the empty
(trimmed) string is 0, optionally signed decimal integers parse, anything
else is NaN (`none`).  Floats, hex and exponent forms are outside the
integer model; no claim depends on them. -/
def parseDec (l : List Char) : Option Int :=
  match l with
  | [] => some 0
  | '-' :: rest => (parseDigits rest).map (fun n => -(n : Int))
  | '+' :: rest => (parseDigits rest).map (fun n => (n : Int))
  | _ => (parseDigits l).map (fun n => (n : Int))

/-- JS `Number(value)`; `none` stands for NaN. -/
def jsNumber : JsValue → Option Int
  | JsValue.undef => none
  | JsValue.nullv => some 0
  | JsValue.bool b => some (if b then 1 else 0)
  | JsValue.num n => some n
  | JsValue.str s => parseDec (jsTrim s.data)

/-- `validateNumber` from validators.js. -/
def validateNumber (value : JsValue) (min max : Int) (fieldName : String) :
    Except String Int :=
  match jsNumber value with
  | none => Except.error (fieldName ++ " must be a valid number")
  | some n =>
    if n < min ∨ max < n then
      Except.error (fieldName ++ " must be between " ++ toString min ++
        " and " ++ toString max)
    else Except.ok n

/-- `validateRequired` from validators.js. -/
def validateRequired (value : JsValue) (fieldName : String) :
    Except String String :=
  let s := sanitizeString value
  if s = "" then
    Except.error (fieldName ++ " is required and cannot be empty")
  else Except.ok s

/-- `validateOptional` from validators.js. -/
def validateOptional (value : JsValue) (min max : Nat) (fieldName : String) :
    Except String (Option String) :=
  if !jsTruthy value then Except.ok none
  else
    let s := sanitizeString value
    if s.length = 0 then Except.ok none
    else Except.map (fun _ => some s) (validateLength s min max fieldName)

/-- The `data.field ? validateNumber(data.field, min, max, name) : null`
expression used for each numeric field of `validateModuleInput`. -/
def optionalNumberField (value : JsValue) (min max : Int) (fieldName : String) :
    Except String (Option Int) :=
  if jsTruthy value then Except.map some (validateNumber value min max fieldName)
  else Except.ok none

/-- The raw payload consumed by `validateModuleInput`. -/
structure ModuleData where
  titleEn : JsValue
  descriptionEn : JsValue
  shortCode : JsValue
  dqsNumber : JsValue
  bkz : JsValue
  pricePerUE : JsValue
  pricePerModule : JsValue
  ue45 : JsValue
  weeks : JsValue
  curriculum : JsValue
  nrMab : JsValue
  certificate : JsValue
  deriving Repr

/-- The validated record produced by `validateModuleInput`. -/
structure ValidatedModule where
  titleEn : String
  descriptionEn : String
  shortCode : Option String
  dqsNumber : Option String
  bkz : Option String
  pricePerUE : Option Int
  pricePerModule : Option Int
  ue45 : Option Int
  weeks : Option Int
  curriculum : Option String
  nrMab : Option String
  certificate : Option String
  deriving DecidableEq, Repr

/-- `validateModuleInput` from validators.js, field for field in declared
order (first failure wins), followed by the two trailing length checks. -/
def validateModuleInput (data : ModuleData) : Except String ValidatedModule := do
  let titleEn ← validateRequired data.titleEn "English Title"
  let descriptionEn ← validateRequired data.descriptionEn "English Description"
  let shortCode ← validateOptional data.shortCode 2 20 "Short Code"
  let dqsNumber ← validateOptional data.dqsNumber 1 50 "DQS Number"
  let bkz ← validateOptional data.bkz 1 50 "BKZ"
  let pricePerUE ← optionalNumberField data.pricePerUE 0 1000000 "Price per UE"
  let pricePerModule ← optionalNumberField data.pricePerModule 0 1000000 "Price per Module"
  let ue45 ← optionalNumberField data.ue45 1 1000 "UE in 45 Min"
  let weeks ← optionalNumberField data.weeks 1 104 "Weeks"
  let curriculum ← validateOptional data.curriculum 0 10000 "Curriculum"
  let nrMab ← validateOptional data.nrMab 0 50 "Nr MAB"
  let certificate ← validateOptional data.certificate 0 200 "Certificate"
  let _ ← validateLength titleEn 3 200 "English Title"
  let _ ← validateLength descriptionEn 10 5000 "English Description"
  return ⟨titleEn, descriptionEn, shortCode, dqsNumber, bkz, pricePerUE,
    pricePerModule, ue45, weeks, curriculum, nrMab, certificate⟩

/-- Is an `Except` result a success (a call that did not throw)? -/
def isOkE {ε α : Type} : Except ε α → Bool
  | Except.ok _ => true
  | Except.error _ => false

/-- The module-level `rateLimitStore` map: key to list of timestamps. -/
abbrev RLStore : Type := String → Option (List Int)

def emptyRL : RLStore := fun _ => none

/-- The rate-limit key `userId:action`. -/
def rlKey (userId action : String) : String := userId ++ ":" ++ action

def rlUpdate (s : RLStore) (k : String) (v : List Int) : RLStore :=
  fun q => if q = k then some v else s q

/-- `checkRateLimit` from validators.js (defaults in the source:
`maxRequests = 10`, `windowMs = 60000`).  The pair carries the outcome (the
thrown message or success) together with the post-call store; a throwing
call leaves the store untouched, exactly as in the source where the throw
happens before any `set`. -/
def checkRateLimit (userId action : String) (maxRequests : Nat)
    (windowMs now : Int) (s : RLStore) : Except String Unit × RLStore :=
  match s (rlKey userId action) with
  | none => (Except.ok (), rlUpdate s (rlKey userId action) [now])
  | some ts =>
    if maxRequests ≤ (ts.filter (fun t => decide (now - t < windowMs))).length then
      (Except.error ("Rate limit exceeded. Maximum " ++ toString maxRequests ++
        " requests per minute for " ++ action), s)
    else (Except.ok (), rlUpdate s (rlKey userId action)
      (ts.filter (fun t => decide (now - t < windowMs)) ++ [now]))

/-- Run a sequence of `checkRateLimit` calls (fixed user, action, policy) at
the given times, returning each call's success flag. -/
def rlOutcomes (u a : String) (m : Nat) (w : Int) :
    List Int → RLStore → List Bool
  | [], _ => []
  | t :: ts, s =>
    isOkE (checkRateLimit u a m w t s).1 ::
      rlOutcomes u a m w ts (checkRateLimit u a m w t s).2

/-- The module-level `recentContentHashes` map, as an association list in
insertion order (JS `Map.set` keeps the position of an existing key). -/
abbrev DupStore : Type := List (String × Int)

/-- The duplicate-content key: `userId` plus `content.substring(0, 100)`;
the `action` argument is not part of it. -/
def dupHash (userId content : String) : String :=
  userId ++ ":" ++ String.mk (content.data.take 100)

def dupLookup : DupStore → String → Option Int
  | [], _ => none
  | (k, t) :: rest, h => if k = h then some t else dupLookup rest h

def dupInsert : DupStore → String → Int → DupStore
  | [], h, v => [(h, v)]
  | (k, t) :: rest, h, v =>
    if k = h then (k, v) :: rest else (k, t) :: dupInsert rest h v

/-- The cleanup loop of `checkDuplicateContent`: delete every entry with
`now - timestamp > windowMs * 2`. -/
def dupSweep (now w : Int) (s : DupStore) : DupStore :=
  s.filter (fun kv => decide (now - kv.2 ≤ 2 * w))

/-- `checkDuplicateContent` from validators.js (default `windowMs = 30000`).
The `action` parameter is accepted but unused, as in the source.  On a
duplicate the function throws before touching the store; otherwise it
records `now` under the key and then sweeps stale entries store-wide. -/
def checkDuplicateContent (userId content action : String)
    (windowMs now : Int) (s : DupStore) : Except String Unit × DupStore :=
  match dupLookup s (dupHash userId content) with
  | some lastSubmission =>
    if now - lastSubmission < windowMs then
      (Except.error "Duplicate submission detected. Please wait before submitting identical content.", s)
    else (Except.ok (), dupSweep now windowMs (dupInsert s (dupHash userId content) now))
  | none => (Except.ok (), dupSweep now windowMs (dupInsert s (dupHash userId content) now))

/-- Run a sequence of `checkDuplicateContent` calls at the given times,
returning the success flags and the final store. -/
def dupRun (u c a : String) (w : Int) :
    List Int → DupStore → List Bool × DupStore
  | [], s => ([], s)
  | t :: ts, s =>
    let r := checkDuplicateContent u c a w t s
    let rest := dupRun u c a w ts r.2
    (isOkE r.1 :: rest.1, rest.2)

/-- The authenticated caller context produced by `authenticateUser`. -/
structure UserContext where
  userId : String
  email : String
  role : String
  displayName : String
  active : Bool
  deriving DecidableEq, Repr

/-- `Object.values(ROLES)` from the auth middleware. -/
def ROLES : List String := ["sysadmin", "programOwner", "operations"]

/-- `ROLE_HIERARCHY[role] || 0`: sysadmin 3, programOwner 2, operations 1,
anything else 0. -/
def roleHierarchy (role : String) : Nat :=
  if role = "sysadmin" then 3
  else if role = "programOwner" then 2
  else if role = "operations" then 1
  else 0

/-- `requireRole` from the auth middleware (a single role is wrapped into a
one-element array by the source before this membership test). -/
def requireRole (ctx : UserContext) (requiredRoles : List String) :
    Except String Unit :=
  if ctx.role ∈ requiredRoles then Except.ok ()
  else Except.error ("Forbidden: Requires one of these roles: " ++
    String.intercalate ", " requiredRoles)

/-- `requireMinRole` from the auth middleware. -/
def requireMinRole (ctx : UserContext) (minRole : String) :
    Except String Unit :=
  if roleHierarchy ctx.role < roleHierarchy minRole then
    Except.error ("Forbidden: Requires minimum role: " ++ minRole)
  else Except.ok ()

/-- A certificationRounds document (its `status` field plus the rest of the
payload, abstracted to a name). -/
structure Round where
  status : String
  name : String
  deriving DecidableEq, Repr

/-- `requireActiveCertificationRound`: the Firestore query
`.where("status", "==", "active").limit(1)` over the given collection;
empty result throws, otherwise the first matching document's data is
returned. -/
def requireActiveCertificationRound (rounds : List Round) :
    Except String Round :=
  match (rounds.filter (fun r => r.status == "active")).head? with
  | none =>
    Except.error "Forbidden: No active certification round. Changes are not allowed."
  | some r => Except.ok r

/-- A stored resource document, exposing its (string-valued) fields. -/
structure ResDoc where
  fields : String → Option String

/-- `requireOwnership` from the auth middleware (the source defaults
`ownerField` to `"createdBy"`; callers that omit it pass that default).
The resource store maps collection name and document id to a document. -/
def requireOwnership (ctx : UserContext) (resourceType resourceId ownerField : String)
    (store : String → String → Option ResDoc) : Except String Unit :=
  if ctx.role = "sysadmin" then Except.ok ()
  else
    match store resourceType resourceId with
    | none => Except.error (resourceType ++ " not found")
    | some d =>
      if d.fields ownerField = some ctx.userId then Except.ok ()
      else Except.error ("Forbidden: You do not own this " ++ resourceType)

/-- The identity token delivered with a callable request. -/
structure AuthToken where
  email : String
  role : Option String
  deriving Repr

structure AuthInfo where
  uid : String
  token : AuthToken

/-- The inbound callable request, restricted to what the middleware reads. -/
structure CallRequest where
  auth : Option AuthInfo

/-- A users-collection document, restricted to the fields the middleware reads. -/
structure UserDoc where
  active : Bool
  role : Option String
  displayName : String

/-- JS `a || b` on the (string-or-absent) role values: an absent or empty
token claim falls back to the stored profile role. -/
def jsOrStr (a b : Option String) : Option String :=
  match a with
  | some s => if s = "" then b else some s
  | none => b

/-- `authenticateUser` from the auth middleware, with the users collection
passed in as a lookup function. -/
def authenticateUser (request : CallRequest)
    (users : String → Option UserDoc) : Except String UserContext :=
  match request.auth with
  | none => Except.error "Unauthorized: No authentication provided"
  | some info =>
    match users info.uid with
    | none => Except.error "Unauthorized: User not found in system"
    | some u =>
      if !u.active then Except.error "Unauthorized: User account is deactivated"
      else
        match jsOrStr info.token.role u.role with
        | none => Except.error "Unauthorized: Invalid user role"
        | some r =>
          if r ∈ ROLES then
            Except.ok ⟨info.uid, info.token.email, r, u.displayName, u.active⟩
          else Except.error "Unauthorized: Invalid user role"

/-- The `requireOwnership` entry of `authorizeRequest`'s options. -/
structure OwnershipOpts where
  resourceType : String
  resourceId : String
  ownerField : Option String

/-- `authorizeRequest`'s options object (absent entries are the source's
defaults: null, null, false, null). -/
structure AuthzOptions where
  requireRoles : Option (List String)
  minRole : Option String
  requireActiveRound : Bool
  ownership : Option OwnershipOpts

/-- The external document store as consumed by the middleware. -/
structure Db where
  users : String → Option UserDoc
  rounds : List Round
  resources : String → String → Option ResDoc

structure AuthzResult where
  userContext : UserContext
  activeRound : Option Round

/-- `authorizeRequest` from the auth middleware: authenticate, role-set
check, min-role check, active-round check (value captured), ownership
check, in that fixed order, each failure short-circuiting the rest. -/
def authorizeRequest (request : CallRequest) (options : AuthzOptions)
    (db : Db) : Except String AuthzResult :=
  match authenticateUser request db.users with
  | Except.error e => Except.error e
  | Except.ok ctx =>
    match (match options.requireRoles with
           | some rs => requireRole ctx rs
           | none => Except.ok ()) with
    | Except.error e => Except.error e
    | Except.ok _ =>
      match (match options.minRole with
             | some m => requireMinRole ctx m
             | none => Except.ok ()) with
      | Except.error e => Except.error e
      | Except.ok _ =>
        match (if options.requireActiveRound then
                 Except.map some (requireActiveCertificationRound db.rounds)
               else Except.ok none) with
        | Except.error e => Except.error e
        | Except.ok activeRound =>
          match (match options.ownership with
                 | some o =>
                   requireOwnership ctx o.resourceType o.resourceId
                     (o.ownerField.getD "createdBy") db.resources
                 | none => Except.ok ()) with
          | Except.error e => Except.error e
          | Except.ok _ => Except.ok ⟨ctx, activeRound⟩

/-- An auditLogs document as written by `logAudit` (the server-assigned
timestamp sentinel carries no information in the model). -/
structure AuditEntry where
  action : String
  userId : String
  userEmail : String
  userRole : String
  resourceType : String
  resourceId : String
  details : List (String × String)
  ipAddress : Option String

/-- JS `details.ipAddress || null`. -/
def jsOrNull (v : Option String) : Option String :=
  match v with
  | some s => if s = "" then none else some s
  | none => none

def mkAuditEntry (action : String) (ctx : UserContext)
    (resourceType resourceId : String) (details : List (String × String)) :
    AuditEntry :=
  ⟨action, ctx.userId, ctx.email, ctx.role, resourceType, resourceId, details,
    jsOrNull (details.lookup "ipAddress")⟩

/-- `logAudit` from the auth middleware, with the audit-store `add` passed
in as a fallible operation.  The source wraps the write in try/catch: a
failed write is converted into a console diagnostic (returned here as the
list of diagnostic lines) and the function itself always returns normally. -/
def logAudit (add : AuditEntry → Except String Unit) (action : String)
    (ctx : UserContext) (resourceType resourceId : String)
    (details : List (String × String)) : Except String (List String) :=
  match add (mkAuditEntry action ctx resourceType resourceId details) with
  | Except.ok _ => Except.ok []
  | Except.error e => Except.ok ["Audit log failed: " ++ e]

lemma requireMinRole_ok_iff (ctx : UserContext) (minRole : String) :
    requireMinRole ctx minRole = Except.ok () ↔
    roleHierarchy minRole ≤ roleHierarchy ctx.role := by
  unfold requireMinRole
  by_cases h : roleHierarchy ctx.role < roleHierarchy minRole
  · rw [if_pos h]
    constructor
    · intro hc
      exact Except.noConfusion hc
    · intro hle
      omega
  · rw [if_neg h]
    constructor
    · intro _
      omega
    · intro _
      rfl

lemma requireActive_error (rounds : List Round)
    (h : ∀ r ∈ rounds, r.status ≠ "active") :
    requireActiveCertificationRound rounds =
    Except.error "Forbidden: No active certification round. Changes are not allowed." := by
  unfold requireActiveCertificationRound
  have hf : rounds.filter (fun r => r.status == "active") = [] := by
    apply List.filter_eq_nil_iff.mpr
    intro a ha
    simpa using h a ha
  rw [hf]
  rfl

lemma requireActive_ok (rounds : List Round) (r : Round)
    (h : (rounds.filter (fun x => x.status == "active")).head? = some r) :
    requireActiveCertificationRound rounds = Except.ok r := by
  unfold requireActiveCertificationRound
  rw [h]

/-- Claim C6: `requireMinRole(ctx, m)` succeeds iff
`hierarchyLevel(ctx.role) >= hierarchyLevel(m)` with sysadmin 3,
programOwner 2, operations 1 and every other role at level 0; in
particular the `minRole = programOwner` check succeeds exactly at level at
least 2, and a higher-level role satisfies every lower-level minimum. -/
theorem claim_C6 :
    (∀ ctx minRole, requireMinRole ctx minRole = Except.ok () ↔
      roleHierarchy minRole ≤ roleHierarchy ctx.role) ∧
    roleHierarchy "sysadmin" = 3 ∧
    roleHierarchy "programOwner" = 2 ∧
    roleHierarchy "operations" = 1 ∧
    (∀ r, r ≠ "sysadmin" → r ≠ "programOwner" → r ≠ "operations" →
      roleHierarchy r = 0) ∧
    (∀ ctx, requireMinRole ctx "programOwner" = Except.ok () ↔
      2 ≤ roleHierarchy ctx.role) ∧
    (∀ ctx hi lo, roleHierarchy lo ≤ roleHierarchy hi →
      requireMinRole ctx hi = Except.ok () →
      requireMinRole ctx lo = Except.ok ()) := by
  refine ⟨requireMinRole_ok_iff, rfl, rfl, rfl, ?_, ?_, ?_⟩
  · intro r h1 h2 h3
    unfold roleHierarchy
    rw [if_neg h1, if_neg h2, if_neg h3]
  · intro ctx
    exact requireMinRole_ok_iff ctx "programOwner"
  · intro ctx hi lo hle hok
    rw [requireMinRole_ok_iff] at hok ⊢
    omega

theorem claim_C6_witness :
    requireMinRole ⟨"u1", "a@b.c", "sysadmin", "Dana", true⟩ "operations" =
    Except.ok () :=
  claim_C6.2.2.2.2.2.2 ⟨"u1", "a@b.c", "sysadmin", "Dana", true⟩
    "programOwner" "operations" (by decide)
    ((claim_C6.1 ⟨"u1", "a@b.c", "sysadmin", "Dana", true⟩ "programOwner").mpr
      (by decide))

/-- Claim C3: `requireOwnership` lets a sysadmin caller through
unconditionally, independently of the resource store (so without fetching
the resource or consulting its ownership field); for any other role it
fetches the document, throws the not-found message when it is absent, the
Forbidden message when its `ownerField` differs from the caller's userId,
and succeeds otherwise. -/
theorem claim_C3 :
    (∀ ctx rt ri f store, ctx.role = "sysadmin" →
      requireOwnership ctx rt ri f store = Except.ok ()) ∧
    (∀ ctx rt ri f store, ctx.role ≠ "sysadmin" → store rt ri = none →
      requireOwnership ctx rt ri f store = Except.error (rt ++ " not found")) ∧
    (∀ ctx rt ri f store d, ctx.role ≠ "sysadmin" → store rt ri = some d →
      d.fields f ≠ some ctx.userId →
      requireOwnership ctx rt ri f store =
        Except.error ("Forbidden: You do not own this " ++ rt)) ∧
    (∀ ctx rt ri f store d, ctx.role ≠ "sysadmin" → store rt ri = some d →
      d.fields f = some ctx.userId →
      requireOwnership ctx rt ri f store = Except.ok ()) := by
  refine ⟨?_, ?_, ?_, ?_⟩
  · intro ctx rt ri f store h
    unfold requireOwnership
    rw [if_pos h]
  · intro ctx rt ri f store h hs
    unfold requireOwnership
    rw [if_neg h, hs]
  · intro ctx rt ri f store d h hs hf
    unfold requireOwnership
    rw [if_neg h, hs]
    simp only [if_neg hf]
  · intro ctx rt ri f store d h hs hf
    unfold requireOwnership
    rw [if_neg h, hs]
    simp only [if_pos hf]

theorem claim_C3_witness :
    requireOwnership ⟨"alice", "a@b.c", "sysadmin", "Alice", true⟩
      "modules" "m1" "createdBy"
      (fun _ _ => some ⟨fun f => if f = "createdBy" then some "bob" else none⟩) =
    Except.ok () :=
  claim_C3.1 _ _ _ _ _ rfl

/-- Claim C7: `logAudit` never raises to its caller: whatever the
audit-store write does, the call returns normally, and a write failure is
only reported on the diagnostic channel (the returned console lines). -/
theorem claim_C7 :
    ∀ add action ctx rt ri details,
    (∃ diags, logAudit add action ctx rt ri details = Except.ok diags) ∧
    (∀ u, add (mkAuditEntry action ctx rt ri details) = Except.ok u →
      logAudit add action ctx rt ri details = Except.ok []) ∧
    (∀ e, add (mkAuditEntry action ctx rt ri details) = Except.error e →
      logAudit add action ctx rt ri details =
        Except.ok ["Audit log failed: " ++ e]) := by
  intro add action ctx rt ri details
  refine ⟨?_, ?_, ?_⟩
  · unfold logAudit
    cases h : add (mkAuditEntry action ctx rt ri details) with
    | ok u => exact ⟨[], rfl⟩
    | error e => exact ⟨["Audit log failed: " ++ e], rfl⟩
  · intro u h
    unfold logAudit
    rw [h]
  · intro e h
    unfold logAudit
    rw [h]

theorem claim_C7_witness :
    logAudit (fun _ => Except.error "store unavailable") "CREATE_MODULE"
      ⟨"u1", "a@b.c", "sysadmin", "Dana", true⟩ "modules" "m1" [] =
    Except.ok ["Audit log failed: store unavailable"] :=
  (claim_C7 (fun _ => Except.error "store unavailable") "CREATE_MODULE"
    ⟨"u1", "a@b.c", "sysadmin", "Dana", true⟩ "modules" "m1" []).2.2
    "store unavailable" rfl

/-- Claim C2: with no round of status "active", the round gate throws the
Forbidden message, and `authorizeRequest` with `requireActiveRound: true`
propagates that failure for every authenticated caller (any role,
sysadmin included) whose earlier role checks pass; with an active round
present the round's data is returned and captured as `activeRound`. -/
theorem claim_C2 :
    (∀ rounds, (∀ r ∈ rounds, r.status ≠ "active") →
      requireActiveCertificationRound rounds =
        Except.error "Forbidden: No active certification round. Changes are not allowed.") ∧
    (∀ rounds r, (rounds.filter (fun x => x.status == "active")).head? = some r →
      requireActiveCertificationRound rounds = Except.ok r) ∧
    (∀ request options db ctx,
      authenticateUser request db.users = Except.ok ctx →
      (∀ rs, options.requireRoles = some rs → ctx.role ∈ rs) →
      (∀ m, options.minRole = some m →
        roleHierarchy m ≤ roleHierarchy ctx.role) →
      options.requireActiveRound = true →
      (∀ r ∈ db.rounds, r.status ≠ "active") →
      authorizeRequest request options db =
        Except.error "Forbidden: No active certification round. Changes are not allowed.") ∧
    (∀ request options db ctx r,
      authenticateUser request db.users = Except.ok ctx →
      (∀ rs, options.requireRoles = some rs → ctx.role ∈ rs) →
      (∀ m, options.minRole = some m →
        roleHierarchy m ≤ roleHierarchy ctx.role) →
      options.requireActiveRound = true →
      (db.rounds.filter (fun x => x.status == "active")).head? = some r →
      (∀ o, options.ownership = some o →
        requireOwnership ctx o.resourceType o.resourceId
          (o.ownerField.getD "createdBy") db.resources = Except.ok ()) →
      authorizeRequest request options db = Except.ok ⟨ctx, some r⟩) := by
  have hrole : ∀ (options : AuthzOptions) (ctx : UserContext),
      (∀ rs, options.requireRoles = some rs → ctx.role ∈ rs) →
      (match options.requireRoles with
       | some rs => requireRole ctx rs
       | none => Except.ok ()) = Except.ok () := by
    intro options ctx h
    cases hrr : options.requireRoles with
    | none => rfl
    | some rs =>
      show requireRole ctx rs = Except.ok ()
      unfold requireRole
      rw [if_pos (h rs hrr)]
  have hmin : ∀ (options : AuthzOptions) (ctx : UserContext),
      (∀ m, options.minRole = some m →
        roleHierarchy m ≤ roleHierarchy ctx.role) →
      (match options.minRole with
       | some m => requireMinRole ctx m
       | none => Except.ok ()) = Except.ok () := by
    intro options ctx h
    cases hmr : options.minRole with
    | none => rfl
    | some m =>
      show requireMinRole ctx m = Except.ok ()
      exact (requireMinRole_ok_iff ctx m).mpr (h m hmr)
  refine ⟨requireActive_error, requireActive_ok, ?_, ?_⟩
  · intro request options db ctx hauth hroles hmins hactive hnone
    unfold authorizeRequest
    rw [hauth]
    simp only [hrole options ctx hroles, hmin options ctx hmins, hactive,
      if_true, requireActive_error db.rounds hnone, Except.map]
  · intro request options db ctx r hauth hroles hmins hactive hhead hown
    unfold authorizeRequest
    rw [hauth]
    have howns : (match options.ownership with
        | some o => requireOwnership ctx o.resourceType o.resourceId
            (o.ownerField.getD "createdBy") db.resources
        | none => Except.ok ()) = Except.ok () := by
      cases ho : options.ownership with
      | none => rfl
      | some o => exact hown o ho
    simp only [hrole options ctx hroles, hmin options ctx hmins, hactive,
      if_true, requireActive_ok db.rounds r hhead, Except.map, howns]

theorem claim_C2_witness :
    (authorizeRequest ⟨some ⟨"u1", ⟨"a@b.c", none⟩⟩⟩ ⟨none, none, true, none⟩
      ⟨fun uid => if uid = "u1" then some ⟨true, some "sysadmin", "Dana"⟩ else none,
       [⟨"closed", "r1"⟩], fun _ _ => none⟩ =
      Except.error "Forbidden: No active certification round. Changes are not allowed.") ∧
    (authorizeRequest ⟨some ⟨"u1", ⟨"a@b.c", none⟩⟩⟩ ⟨none, none, true, none⟩
      ⟨fun uid => if uid = "u1" then some ⟨true, some "sysadmin", "Dana"⟩ else none,
       [⟨"closed", "r1"⟩, ⟨"active", "r2"⟩], fun _ _ => none⟩ =
      Except.ok ⟨⟨"u1", "a@b.c", "sysadmin", "Dana", true⟩, some ⟨"active", "r2"⟩⟩) := by
  constructor
  · exact claim_C2.2.2.1 _ _ _ ⟨"u1", "a@b.c", "sysadmin", "Dana", true⟩
      rfl (fun rs h => nomatch h) (fun m h => nomatch h) rfl (by decide)
  · exact claim_C2.2.2.2 _ _ _ ⟨"u1", "a@b.c", "sysadmin", "Dana", true⟩
      ⟨"active", "r2"⟩ rfl (fun rs h => nomatch h) (fun m h => nomatch h) rfl
      (by decide) (fun o h => nomatch h)

lemma exBind_ok {ε α β : Type} {ma : Except ε α} {f : α → Except ε β} {b : β}
    (h : ma >>= f = Except.ok b) :
    ∃ a, ma = Except.ok a ∧ f a = Except.ok b := by
  cases ma with
  | error e => exact absurd h (by simp [Bind.bind, Except.bind])
  | ok a => exact ⟨a, rfl, h⟩

/-- Claim C10: in `validateModuleInput` each numeric field reaches
`validateNumber` only when the raw value is truthy; the number 0 and any
other falsy raw value (such as the empty string) yield null without any
error, even though 0 lies inside the declared range of the price fields. -/
theorem claim_C10 :
    (∀ v lo hi name, jsTruthy v = false →
      optionalNumberField v lo hi name = Except.ok none) ∧
    (∀ v lo hi name, jsTruthy v = true →
      optionalNumberField v lo hi name =
        Except.map some (validateNumber v lo hi name)) ∧
    (jsTruthy (JsValue.num 0) = false ∧ jsTruthy (JsValue.str "") = false) ∧
    validateNumber (JsValue.num 0) 0 1000000 "Price per UE" = Except.ok 0 ∧
    (∀ data v, validateModuleInput data = Except.ok v →
      jsTruthy data.pricePerUE = false → v.pricePerUE = none) ∧
    validateModuleInput ⟨JsValue.str "Valid Title", JsValue.str "A long description.",
      JsValue.undef, JsValue.undef, JsValue.undef, JsValue.num 0, JsValue.str "",
      JsValue.num 0, JsValue.undef, JsValue.undef, JsValue.undef, JsValue.undef⟩ =
      Except.ok ⟨"Valid Title", "A long description.", none, none, none, none,
        none, none, none, none, none, none⟩ := by
  refine ⟨?_, ?_, ⟨rfl, rfl⟩, rfl, ?_, by rfl⟩
  · intro v lo hi name h
    unfold optionalNumberField
    rw [h]
    rfl
  · intro v lo hi name h
    unfold optionalNumberField
    rw [h]
    rfl
  · intro data v h hfalsy
    have hp : optionalNumberField data.pricePerUE 0 1000000 "Price per UE" =
        Except.ok none := by
      unfold optionalNumberField
      rw [hfalsy]
      rfl
    unfold validateModuleInput at h
    obtain ⟨titleEn, h1, h⟩ := exBind_ok h
    obtain ⟨descriptionEn, h2, h⟩ := exBind_ok h
    obtain ⟨shortCode, h3, h⟩ := exBind_ok h
    obtain ⟨dqsNumber, h4, h⟩ := exBind_ok h
    obtain ⟨bkz, h5, h⟩ := exBind_ok h
    obtain ⟨ppu, h6, h⟩ := exBind_ok h
    obtain ⟨ppm, h7, h⟩ := exBind_ok h
    obtain ⟨u45, h8, h⟩ := exBind_ok h
    obtain ⟨wks, h9, h⟩ := exBind_ok h
    obtain ⟨cur, h10, h⟩ := exBind_ok h
    obtain ⟨nrm, h11, h⟩ := exBind_ok h
    obtain ⟨cert, h12, h⟩ := exBind_ok h
    obtain ⟨x1, h13, h⟩ := exBind_ok h
    obtain ⟨x2, h14, h⟩ := exBind_ok h
    rw [hp] at h6
    injection h6 with hppu
    have hv : Except.ok (⟨titleEn, descriptionEn, shortCode, dqsNumber, bkz, ppu,
        ppm, u45, wks, cur, nrm, cert⟩ : ValidatedModule) = Except.ok v := h
    injection hv with hv2
    rw [← hv2, ← hppu]

theorem claim_C10_witness :
    optionalNumberField (JsValue.num 0) 0 1000000 "Price per UE" =
    Except.ok none :=
  claim_C10.1 (JsValue.num 0) 0 1000000 "Price per UE" rfl

lemma dup_step_none (u c a : String) (w now : Int) (s : DupStore)
    (hl : dupLookup s (dupHash u c) = none) :
    checkDuplicateContent u c a w now s =
      (Except.ok (), dupSweep now w (dupInsert s (dupHash u c) now)) := by
  unfold checkDuplicateContent
  simp only [hl]

lemma dup_step_fresh (u c a : String) (w now : Int) (s : DupStore)
    (last : Int) (hl : dupLookup s (dupHash u c) = some last)
    (hw : ¬(now - last < w)) :
    checkDuplicateContent u c a w now s =
      (Except.ok (), dupSweep now w (dupInsert s (dupHash u c) now)) := by
  unfold checkDuplicateContent
  simp only [hl]
  rw [if_neg hw]

lemma dup_step_err (u c a : String) (w now : Int) (s : DupStore)
    (last : Int) (hl : dupLookup s (dupHash u c) = some last)
    (hw : now - last < w) :
    checkDuplicateContent u c a w now s =
      (Except.error "Duplicate submission detected. Please wait before submitting identical content.", s) := by
  unfold checkDuplicateContent
  simp only [hl]
  rw [if_pos hw]

lemma dupLookup_sweep_insert (k : String) (v now w : Int) :
    ∀ s : DupStore, dupLookup s k = none →
    dupLookup (dupSweep now w (dupInsert s k v)) k =
      if now - v ≤ 2 * w then some v else none := by
  intro s
  induction s with
  | nil =>
    intro _
    unfold dupInsert dupSweep
    rw [List.filter_cons]
    by_cases hc : now - v ≤ 2 * w
    · rw [if_pos (decide_eq_true hc), if_pos hc]
      unfold dupLookup
      rw [if_pos rfl]
    · rw [if_neg (by simpa using hc), if_neg hc]
      rfl
  | cons p rest ih =>
    intro h
    obtain ⟨pk, pt⟩ := p
    unfold dupLookup at h
    by_cases hpk : pk = k
    · rw [if_pos hpk] at h
      exact absurd h (by simp)
    · rw [if_neg hpk] at h
      unfold dupInsert
      rw [if_neg hpk]
      unfold dupSweep at ih ⊢
      rw [List.filter_cons]
      by_cases hc2 : now - pt ≤ 2 * w
      · rw [if_pos (decide_eq_true hc2)]
        unfold dupLookup
        rw [if_neg hpk]
        exact ih h
      · rw [if_neg (by simpa using hc2)]
        exact ih h

lemma dup_error_iff (u c a : String) (w now : Int) (s : DupStore) :
    isOkE (checkDuplicateContent u c a w now s).1 = false ↔
    ∃ last, dupLookup s (dupHash u c) = some last ∧ now - last < w := by
  cases hl : dupLookup s (dupHash u c) with
  | none =>
    rw [dup_step_none u c a w now s hl]
    simp [isOkE]
  | some last =>
    by_cases hw : now - last < w
    · rw [dup_step_err u c a w now s last hl hw]
      simp [isOkE, hl, hw]
    · rw [dup_step_fresh u c a w now s last hl hw]
      simp [isOkE, hl, hw]

lemma dup_error_store (u c a : String) (w now : Int) (s : DupStore)
    (h : isOkE (checkDuplicateContent u c a w now s).1 = false) :
    (checkDuplicateContent u c a w now s).2 = s := by
  obtain ⟨last, hl, hw⟩ := (dup_error_iff u c a w now s).mp h
  rw [dup_step_err u c a w now s last hl hw]

lemma dup_ok_store (u c a : String) (w now : Int) (s : DupStore)
    (h : isOkE (checkDuplicateContent u c a w now s).1 = true) :
    (checkDuplicateContent u c a w now s).2 =
      dupSweep now w (dupInsert s (dupHash u c) now) := by
  cases hl : dupLookup s (dupHash u c) with
  | none => rw [dup_step_none u c a w now s hl]
  | some last =>
    by_cases hw : now - last < w
    · rw [dup_step_err u c a w now s last hl hw] at h
      exact absurd h (by simp [isOkE])
    · rw [dup_step_fresh u c a w now s last hl hw]

/-- Claim C4: `checkDuplicateContent` keys on the user and the first 100
characters of the content only (the `action` argument is ignored), throws
exactly when a prior timestamp for that key is strictly within `windowMs`
of now, and so rejects the second of two identical submissions within the
window while accepting both when they are at least `windowMs` apart. -/
theorem claim_C4 :
    (∀ u c a a2 w now s, checkDuplicateContent u c a w now s =
      checkDuplicateContent u c a2 w now s) ∧
    (∀ u c c2 a w now s, c.data.take 100 = c2.data.take 100 →
      checkDuplicateContent u c a w now s =
        checkDuplicateContent u c2 a w now s) ∧
    (∀ u c a w now s, isOkE (checkDuplicateContent u c a w now s).1 = false ↔
      ∃ last, dupLookup s (dupHash u c) = some last ∧ now - last < w) ∧
    (∀ u c a w t1 t2 s, dupLookup s (dupHash u c) = none →
      0 ≤ t2 - t1 → t2 - t1 < w →
      isOkE (checkDuplicateContent u c a w t1 s).1 = true ∧
      isOkE (checkDuplicateContent u c a w t2
        (checkDuplicateContent u c a w t1 s).2).1 = false) ∧
    (∀ u c a w t1 t2 s, dupLookup s (dupHash u c) = none →
      w ≤ t2 - t1 →
      isOkE (checkDuplicateContent u c a w t1 s).1 = true ∧
      isOkE (checkDuplicateContent u c a w t2
        (checkDuplicateContent u c a w t1 s).2).1 = true) := by
  have hok1 : ∀ u c a w t1 (s : DupStore), dupLookup s (dupHash u c) = none →
      isOkE (checkDuplicateContent u c a w t1 s).1 = true := by
    intro u c a w t1 s hl
    rw [dup_step_none u c a w t1 s hl]
    rfl
  have hstore1 : ∀ u c a w t1 (s : DupStore), dupLookup s (dupHash u c) = none →
      dupLookup (checkDuplicateContent u c a w t1 s).2 (dupHash u c) =
        if t1 - t1 ≤ 2 * w then some t1 else none := by
    intro u c a w t1 s hl
    rw [dup_step_none u c a w t1 s hl]
    exact dupLookup_sweep_insert (dupHash u c) t1 t1 w s hl
  refine ⟨?_, ?_, dup_error_iff, ?_, ?_⟩
  · intro u c a a2 w now s
    rfl
  · intro u c c2 a w now s h
    unfold checkDuplicateContent dupHash
    rw [h]
  · intro u c a w t1 t2 s hl h0 hw
    refine ⟨hok1 u c a w t1 s hl, ?_⟩
    have hs1 : dupLookup (checkDuplicateContent u c a w t1 s).2 (dupHash u c) =
        some t1 := by
      rw [hstore1 u c a w t1 s hl, if_pos (by omega)]
    exact (dup_error_iff u c a w t2 _).mpr ⟨t1, hs1, by omega⟩
  · intro u c a w t1 t2 s hl hgap
    refine ⟨hok1 u c a w t1 s hl, ?_⟩
    by_cases hc : t1 - t1 ≤ 2 * w
    · have hs1 : dupLookup (checkDuplicateContent u c a w t1 s).2 (dupHash u c) =
          some t1 := by
        rw [hstore1 u c a w t1 s hl, if_pos hc]
      rw [dup_step_fresh u c a w t2 _ t1 hs1 (by omega)]
      rfl
    · have hs1 : dupLookup (checkDuplicateContent u c a w t1 s).2 (dupHash u c) =
          none := by
        rw [hstore1 u c a w t1 s hl, if_neg hc]
      rw [dup_step_none u c a w t2 _ hs1]
      rfl

theorem claim_C4_witness :
    (isOkE (checkDuplicateContent "u1" "same text" "createComment" 30000 1000 []).1 = true ∧
     isOkE (checkDuplicateContent "u1" "same text" "createComment" 30000 2000
       (checkDuplicateContent "u1" "same text" "createComment" 30000 1000 []).2).1 = false) ∧
    (isOkE (checkDuplicateContent "u1" "same text" "createComment" 30000 1000 []).1 = true ∧
     isOkE (checkDuplicateContent "u1" "same text" "createComment" 30000 31000
       (checkDuplicateContent "u1" "same text" "createComment" 30000 1000 []).2).1 = true) :=
  ⟨claim_C4.2.2.2.1 "u1" "same text" "createComment" 30000 1000 2000 [] rfl
      (by decide) (by decide),
   claim_C4.2.2.2.2 "u1" "same text" "createComment" 30000 1000 31000 [] rfl
      (by decide)⟩

/-- Claim C8: whenever a `checkDuplicateContent` call returns (i.e. does
not throw), every entry left in the store is at most `2 * windowMs` old:
the closing sweep has removed everything older, whatever key the call
concerned. -/
theorem claim_C8 :
    ∀ u c a w now s, isOkE (checkDuplicateContent u c a w now s).1 = true →
    ∀ k t, (k, t) ∈ (checkDuplicateContent u c a w now s).2 →
    now - t ≤ 2 * w := by
  intro u c a w now s h k t hm
  rw [dup_ok_store u c a w now s h] at hm
  unfold dupSweep at hm
  have := (List.mem_filter.mp hm).2
  simpa using this

theorem claim_C8_witness :
    (1000 : Int) - 1000 ≤ 2 * 30000 :=
  claim_C8 "u1" "hello" "createComment" 30000 1000 [] rfl
    (dupHash "u1" "hello") 1000 (by decide)

lemma dupRun_all_rejected (u c a : String) (w t0 : Int) (s : DupStore)
    (hl : dupLookup s (dupHash u c) = some t0) :
    ∀ ts : List Int, (∀ t ∈ ts, t - t0 < w) →
    dupRun u c a w ts s = (ts.map (fun _ => false), s) := by
  intro ts
  induction ts with
  | nil =>
    intro _
    rfl
  | cons t rest ih =>
    intro h
    have hstep := dup_step_err u c a w t s t0 hl
      (by have := h t (List.mem_cons_self t rest); omega)
    have ihr := ih (fun x hx => h x (List.mem_cons_of_mem t hx))
    simp only [dupRun, hstep, ihr, List.map_cons, isOkE]

/-- Claim C9: a rejected `checkDuplicateContent` call leaves the store
exactly as it was (no timestamp refresh, no sweep), so once `windowMs`
has elapsed since the recorded submission, a resubmission succeeds no
matter how many rejected duplicate attempts happened in between. -/
theorem claim_C9 :
    (∀ u c a w now s, isOkE (checkDuplicateContent u c a w now s).1 = false →
      (checkDuplicateContent u c a w now s).2 = s) ∧
    (∀ u c a w t0 tf s (ts : List Int),
      dupLookup s (dupHash u c) = some t0 →
      (∀ t ∈ ts, t - t0 < w) →
      w ≤ tf - t0 →
      (dupRun u c a w ts s).1 = ts.map (fun _ => false) ∧
      (dupRun u c a w ts s).2 = s ∧
      isOkE (checkDuplicateContent u c a w tf s).1 = true) := by
  refine ⟨dup_error_store, ?_⟩
  intro u c a w t0 tf s ts hl hts hgap
  have hrun := dupRun_all_rejected u c a w t0 s hl ts hts
  refine ⟨by rw [hrun], by rw [hrun], ?_⟩
  rw [dup_step_fresh u c a w tf s t0 hl (by omega)]
  rfl

theorem claim_C9_witness :
    (dupRun "u1" "same text" "createComment" 30000 [2000, 3000]
      [(dupHash "u1" "same text", 1000)]).2 =
      [(dupHash "u1" "same text", 1000)] ∧
    isOkE (checkDuplicateContent "u1" "same text" "createComment" 30000 31000
      [(dupHash "u1" "same text", 1000)]).1 = true :=
  ⟨(claim_C9.2 "u1" "same text" "createComment" 30000 1000 31000
      [(dupHash "u1" "same text", 1000)] [2000, 3000] rfl (by decide)
      (by decide)).2.1,
   (claim_C9.2 "u1" "same text" "createComment" 30000 1000 31000
      [(dupHash "u1" "same text", 1000)] [2000, 3000] rfl (by decide)
      (by decide)).2.2⟩

lemma rl_step_none (u a : String) (m : Nat) (w now : Int) (s : RLStore)
    (hs : s (rlKey u a) = none) :
    checkRateLimit u a m w now s =
      (Except.ok (), rlUpdate s (rlKey u a) [now]) := by
  unfold checkRateLimit
  simp only [hs]

lemma rl_step_err (u a : String) (m : Nat) (w now : Int) (s : RLStore)
    (ts : List Int) (hs : s (rlKey u a) = some ts)
    (hm : m ≤ (ts.filter (fun t => decide (now - t < w))).length) :
    checkRateLimit u a m w now s =
      (Except.error ("Rate limit exceeded. Maximum " ++ toString m ++
        " requests per minute for " ++ a), s) := by
  unfold checkRateLimit
  simp only [hs]
  rw [if_pos hm]

lemma rl_step_ok (u a : String) (m : Nat) (w now : Int) (s : RLStore)
    (ts : List Int) (hs : s (rlKey u a) = some ts)
    (hm : (ts.filter (fun t => decide (now - t < w))).length < m) :
    checkRateLimit u a m w now s =
      (Except.ok (), rlUpdate s (rlKey u a)
        (ts.filter (fun t => decide (now - t < w)) ++ [now])) := by
  unfold checkRateLimit
  simp only [hs]
  rw [if_neg (by omega)]

lemma rl_burst_aux (u a : String) (m : Nat) (w : Int) :
    ∀ (ts : List Int) (pre : List Int) (s : RLStore),
      s (rlKey u a) = some pre →
      (∀ t ∈ pre, ∀ t2 ∈ ts, t2 - t < w) →
      (∀ t ∈ ts, ∀ t2 ∈ ts, t2 - t < w) →
      rlOutcomes u a m w ts s =
        (List.range ts.length).map (fun i => decide (pre.length + i < m)) := by
  intro ts
  induction ts with
  | nil =>
    intro pre s _ _ _
    rfl
  | cons t rest ih =>
    intro pre s hs hpre hts
    have hfil : pre.filter (fun x => decide (t - x < w)) = pre :=
      List.filter_eq_self.mpr
        (fun x hx => decide_eq_true (hpre x hx t (List.mem_cons_self t rest)))
    by_cases hm : m ≤ pre.length
    · have hstep := rl_step_err u a m w t s pre hs (by rw [hfil]; exact hm)
      have ihr := ih pre s hs
        (fun x hx t2 ht2 => hpre x hx t2 (List.mem_cons_of_mem t ht2))
        (fun x hx t2 ht2 =>
          hts x (List.mem_cons_of_mem t hx) t2 (List.mem_cons_of_mem t ht2))
      simp only [rlOutcomes, hstep, isOkE, ihr, List.length_cons]
      rw [List.range_succ_eq_map, List.map_cons, List.map_map]
      congr 1
      · symm
        exact decide_eq_false (by omega)
      · apply List.map_congr_left
        intro i _
        simp only [Function.comp_apply]
        rw [decide_eq_decide]
        omega
    · have hstep := rl_step_ok u a m w t s pre hs (by rw [hfil]; omega)
      rw [hfil] at hstep
      have hs2 : (rlUpdate s (rlKey u a) (pre ++ [t])) (rlKey u a) =
          some (pre ++ [t]) := by
        unfold rlUpdate
        rw [if_pos rfl]
      have hpre2 : ∀ x ∈ pre ++ [t], ∀ t2 ∈ rest, t2 - x < w := by
        intro x hx t2 ht2
        rcases List.mem_append.mp hx with hx1 | hx2
        · exact hpre x hx1 t2 (List.mem_cons_of_mem t ht2)
        · rw [List.mem_singleton.mp hx2]
          exact hts t (List.mem_cons_self t rest) t2 (List.mem_cons_of_mem t ht2)
      have ihr := ih (pre ++ [t]) (rlUpdate s (rlKey u a) (pre ++ [t])) hs2 hpre2
        (fun x hx t2 ht2 =>
          hts x (List.mem_cons_of_mem t hx) t2 (List.mem_cons_of_mem t ht2))
      simp only [rlOutcomes, hstep, isOkE, ihr, List.length_cons]
      rw [List.range_succ_eq_map, List.map_cons, List.map_map]
      congr 1
      · symm
        exact decide_eq_true (by omega)
      · apply List.map_congr_left
        intro i _
        simp only [Function.comp_apply, List.length_append, List.length_cons,
          List.length_nil]
        rw [decide_eq_decide]
        omega

/-- Claim C1 (amended): `checkRateLimit` keys on `userId:action`; on a key
with no entry the call records the timestamp and succeeds (for any
`maxRequests`, including 0); on an existing key it prunes entries with
`now - t >= windowMs`, throws when the pruned count is at least
`maxRequests`, and otherwise appends the current timestamp.  For
`maxRequests >= 1`, a burst of calls inside one window succeeds exactly on
the first `maxRequests` calls and fails from the `(maxRequests+1)`-th on,
and once every stored timestamp is at least `windowMs` old the next call
succeeds again, also after a prior rejection (a rejected call leaves the
stored list unchanged). -/
theorem claim_C1 :
    (∀ u a m w now s, s (rlKey u a) = none →
      checkRateLimit u a m w now s =
        (Except.ok (), rlUpdate s (rlKey u a) [now])) ∧
    (∀ u a m w now s ts, s (rlKey u a) = some ts →
      m ≤ (ts.filter (fun t => decide (now - t < w))).length →
      checkRateLimit u a m w now s =
        (Except.error ("Rate limit exceeded. Maximum " ++ toString m ++
          " requests per minute for " ++ a), s)) ∧
    (∀ u a m w now s ts, s (rlKey u a) = some ts →
      (ts.filter (fun t => decide (now - t < w))).length < m →
      checkRateLimit u a m w now s =
        (Except.ok (), rlUpdate s (rlKey u a)
          (ts.filter (fun t => decide (now - t < w)) ++ [now]))) ∧
    (∀ u a m w (ts : List Int), 1 ≤ m →
      (∀ t ∈ ts, ∀ t2 ∈ ts, t2 - t < w) →
      rlOutcomes u a m w ts emptyRL =
        (List.range ts.length).map (fun i => decide (i < m))) ∧
    (∀ u a m w now s (ts : List Int), 1 ≤ m → s (rlKey u a) = some ts →
      (∀ t ∈ ts, w ≤ now - t) →
      (checkRateLimit u a m w now s).1 = Except.ok ()) := by
  refine ⟨rl_step_none, rl_step_err, rl_step_ok, ?_, ?_⟩
  · intro u a m w ts hm hts
    cases ts with
    | nil => rfl
    | cons t rest =>
      have hstep := rl_step_none u a m w t emptyRL rfl
      have hs2 : (rlUpdate emptyRL (rlKey u a) [t]) (rlKey u a) = some [t] := by
        unfold rlUpdate
        rw [if_pos rfl]
      have hpre : ∀ x ∈ [t], ∀ t2 ∈ rest, t2 - x < w := by
        intro x hx t2 ht2
        rw [List.mem_singleton.mp hx]
        exact hts t (List.mem_cons_self t rest) t2 (List.mem_cons_of_mem t ht2)
      have ihr := rl_burst_aux u a m w rest [t] _ hs2 hpre
        (fun x hx t2 ht2 =>
          hts x (List.mem_cons_of_mem t hx) t2 (List.mem_cons_of_mem t ht2))
      simp only [rlOutcomes, hstep, isOkE, ihr, List.length_cons]
      rw [List.range_succ_eq_map, List.map_cons, List.map_map]
      congr 1
      · symm
        exact decide_eq_true (by omega)
      · apply List.map_congr_left
        intro i _
        simp only [Function.comp_apply, List.length_cons, List.length_nil]
        rw [decide_eq_decide]
        omega
  · intro u a m w now s ts hm hs hold
    have hfil : ts.filter (fun t => decide (now - t < w)) = [] := by
      apply List.filter_eq_nil_iff.mpr
      intro x hx
      have := hold x hx
      simp only [decide_eq_true_eq]
      omega
    rw [rl_step_ok u a m w now s ts hs (by rw [hfil]; simpa using hm)]

/-- Claim C1 counterexample: with `maxRequests = 0` the claim as stated
demands failure (the pruned count 0 is `>= 0`), but the source returns
success on the very first call for a fresh key, before any limit check. -/
theorem claim_C1_counterexample :
    (checkRateLimit "u" "createModule" 0 60000 0 emptyRL).1 = Except.ok () :=
  rfl

theorem claim_C1_witness :
    rlOutcomes "u" "createModule" 2 10 [0, 1, 2] emptyRL =
      [true, true, false] ∧
    (checkRateLimit "u" "createModule" 2 10 20
      (rlUpdate emptyRL (rlKey "u" "createModule") [0, 1])).1 =
      Except.ok () := by
  constructor
  · rw [claim_C1.2.2.2.1 "u" "createModule" 2 10 [0, 1, 2] (by omega) (by decide)]
    rfl
  · exact claim_C1.2.2.2.2 "u" "createModule" 2 10 20 _ [0, 1] (by omega)
      (by unfold rlUpdate; rw [if_pos rfl]) (by decide)

lemma findClose_sublist : ∀ l s, findClose l = some s → List.Sublist s l := by
  intro l
  induction l with
  | nil =>
    intro s h
    exact absurd h (by simp [findClose])
  | cons c rest ih =>
    intro s h
    unfold findClose at h
    by_cases hc : ciMatch closeChars (c :: rest)
    · rw [if_pos hc] at h
      injection h with he
      rw [← he]
      exact List.drop_sublist 9 (c :: rest)
    · rw [if_neg hc] at h
      exact (ih s h).trans (List.sublist_cons_self c rest)

lemma stripScriptsAux_sublist : ∀ fuel l, List.Sublist (stripScriptsAux fuel l) l := by
  intro fuel
  induction fuel with
  | zero =>
    intro l
    exact List.Sublist.refl l
  | succ fuel ih =>
    intro l
    cases l with
    | nil => exact List.Sublist.refl []
    | cons c rest =>
      simp only [stripScriptsAux]
      by_cases ho : openTagAt (c :: rest)
      · rw [if_pos ho]
        cases hf : findClose (rest.drop 6) with
        | some suffix =>
          simp only [hf]
          exact (ih suffix).trans ((findClose_sublist _ _ hf).trans
            ((List.drop_sublist 6 rest).trans (List.sublist_cons_self c rest)))
        | none =>
          simp only [hf]
          exact (ih rest).cons₂ c
      · rw [if_neg ho]
        exact (ih rest).cons₂ c

/-- Claim C5: `sanitizeString` trims, strips the listed control
characters, strips script-tag markup case-insensitively up to the first
closing tag, and truncates to 10000 characters; non-string input yields
the empty string, and the quoted example keeps only the trailing text. -/
theorem claim_C5 :
    sanitizeString (JsValue.str "<script>alert(1)</script>hello") = "hello" ∧
    (∀ v, (∀ s, v ≠ JsValue.str s) → sanitizeString v = "") ∧
    (∀ s, (sanitizeString (JsValue.str s)).length ≤ 10000) ∧
    (∀ s c, c ∈ (sanitizeString (JsValue.str s)).data →
      isBannedControl c = false) := by
  refine ⟨by decide, ?_, ?_, ?_⟩
  · intro v h
    cases v with
    | str s => exact absurd rfl (h s)
    | undef => rfl
    | nullv => rfl
    | bool b => rfl
    | num n => rfl
  · intro s
    have he : (sanitizeString (JsValue.str s)).length =
        ((stripScripts (stripControl (jsTrim s.data))).take 10000).length := rfl
    rw [he]
    exact (stripScripts (stripControl (jsTrim s.data))).length_take_le 10000
  · intro s c hc
    have hc2 : c ∈ (stripScripts (stripControl (jsTrim s.data))).take 10000 := hc
    have hc3 : c ∈ stripScripts (stripControl (jsTrim s.data)) :=
      List.take_subset 10000 _ hc2
    have hsub : List.Sublist (stripScripts (stripControl (jsTrim s.data)))
        (stripControl (jsTrim s.data)) :=
      stripScriptsAux_sublist _ _
    have hc4 : c ∈ stripControl (jsTrim s.data) := hsub.subset hc3
    have hc5 := (List.mem_filter.mp hc4).2
    simpa using hc5

theorem claim_C5_witness :
    sanitizeString (JsValue.num 7) = "" ∧ isBannedControl 'h' = false :=
  ⟨claim_C5.2.1 (JsValue.num 7) (fun s h => nomatch h),
   claim_C5.2.2.2 "hello" 'h' (by decide)⟩
